import Mathlib

/-!
Verification of the validation/normalization pipeline of `create_AOI.py`
(repository hysds/create_aoi).

The Python values flowing through the pipeline are modelled by the type
`PyVal` (strings, integers, lists, dicts with string keys, `None`).
Python dicts are modelled as association lists in insertion order:
assignment (`setKey`) updates an existing key in place or appends.
Exceptions are modelled by `Except String`; the Python error messages
embed `repr`/`format` of the offending value, which is elided here —
each error string identifies the raise site only, except where the
formatted payload is itself a plain string.

External collaborators are modelled as follows.
* The `json.loads` / `ast.literal_eval` decoding chain applied to string
  inputs is abstracted as a parameter `decode : String → Option PyVal`
  (`none` = both decoders raised).
* `dateutil.parser.parse` is modelled by `parseDateTime`, restricted to
  ISO-like inputs `YYYY-MM-DD[ |T]HH:MM[:SS][Z|±HH:MM]` with years
  1000–9999; anything outside this grammar is unparseable (`none`).
* `datetime.strftime('%Y-%m-%dT%H:%M:%SZ')` is modelled by `strftimeZ`;
  note that, as in Python, it formats the wall-clock fields and appends
  a literal `Z` without any timezone conversion.
* `shapely.geometry.Polygon` + `mapping` are modelled by
  `shapely_mapping_polygon` over integer coordinates: the ring is closed
  by appending the first point when needed, a non-empty ring must have
  at least 4 points once closed, and the empty ring yields an empty
  coordinate sequence.
* Python `set` (used for email deduplication) only accepts hashable
  elements; of `PyVal`, the hashable ones are the atoms
  (string / int / `None`), and `pvBeq` decides equality on them.
-/

namespace CreateAOI

inductive PyVal where
  | vstr : String → PyVal
  | vint : Int → PyVal
  | vlist : List PyVal → PyVal
  | vdict : List (String × PyVal) → PyVal
  | vnone : PyVal

/-- First-match lookup in a Python dict modelled as an association list. -/
def lookupKey : List (String × PyVal) → String → Option PyVal
  | [], _ => Option.none
  | (k, v) :: rest, key => if k = key then some v else lookupKey rest key

/-- Python dict assignment: update an existing key in place, else append. -/
def setKey : List (String × PyVal) → String → PyVal → List (String × PyVal)
  | [], key, v => [(key, v)]
  | (k, w) :: rest, key, v =>
      if k = key then (key, v) :: rest else (k, w) :: setKey rest key v

/-- Python `key in d.keys()`. -/
def hasKey (d : List (String × PyVal)) (key : String) : Bool :=
  (lookupKey d key).isSome

/-- Python `d[key]`, raising `KeyError` when the key is absent. -/
def pyGetItem (d : List (String × PyVal)) (key : String) : Except String PyVal :=
  match lookupKey d key with
  | some v => Except.ok v
  | Option.none => Except.error ("KeyError: " ++ key)

/-- Extract a Python `str`; any other value raises (`AttributeError` on a
string method such as `replace` or `split`). -/
def pyAsStr : PyVal → Except String String
  | PyVal.vstr s => Except.ok s
  | _ => Except.error "AttributeError: str method on non-string"

/-- Extract a Python `list`; any other value raises on list concatenation. -/
def pyAsList : PyVal → Except String (List PyVal)
  | PyVal.vlist l => Except.ok l
  | _ => Except.error "TypeError: can only concatenate list"

/-- The hashable `PyVal`s: Python `set` accepts strings, ints and `None`,
and raises `TypeError: unhashable type` on lists and dicts. -/
def isAtom : PyVal → Bool
  | PyVal.vstr _ => true
  | PyVal.vint _ => true
  | PyVal.vnone => true
  | _ => false

/-- Equality as decided by Python `set` membership on hashable atoms
(under-approximates to `false` on unhashable values, which never reach
a `set`). -/
def pvBeq : PyVal → PyVal → Bool
  | PyVal.vstr a, PyVal.vstr b => a = b
  | PyVal.vint a, PyVal.vint b => a = b
  | PyVal.vnone, PyVal.vnone => true
  | _, _ => false

/-- Python `list(set(l))` for a list of hashable atoms, modelled as keeping the
first occurrence of each element (the claims only constrain the
underlying set, not the unspecified iteration order of a Python set). -/
def pydedup : List PyVal → List PyVal
  | [] => []
  | x :: xs => x :: (pydedup xs).filter (fun y => !(pvBeq x y))

/-- Python `s.split(c)` for a one-character separator, over char lists. -/
def splitOnChar (c : Char) : List Char → List (List Char)
  | [] => [[]]
  | x :: xs =>
      let r := splitOnChar c xs
      if x = c then [] :: r
      else
        match r with
        | y :: ys => (x :: y) :: ys
        | [] => [[x]]

/-- Python `s.split(c)` on strings. -/
def pySplit (s : String) (c : Char) : List String :=
  (splitOnChar c s.data).map String.mk

/-- Python `str.replace(' ', '_')` applied to one character. -/
def spaceToUnderscore (c : Char) : Char :=
  if c = ' ' then '_' else c

/-- A character kept by `re.sub(r"[^a-zA-Z0-9_]+", '', ·)`. -/
def isWordChar (c : Char) : Bool :=
  (('A' ≤ c && c ≤ 'Z') || ('a' ≤ c && c ≤ 'z') || ('0' ≤ c && c ≤ '9') || c = '_')

/-- The sanitizer shared by `validate_type` (line 104) and
`generate_label` (line 97): `re.sub(r"[^a-zA-Z0-9_]+", '',
s.replace(' ', '_'))`. -/
def sanitize (s : String) : String :=
  String.mk ((s.data.map spaceToUnderscore).filter isWordChar)

/-- Source `validate_type` (create_AOI.py lines 102-104). -/
def validate_type (aoi_type : String) : String :=
  sanitize aoi_type

/-- The character set `{A, O, I, _}` stripped by `str.lstrip('AOI_')`. -/
def inAOIChars (c : Char) : Bool :=
  (c = 'A' || c = 'O' || c = 'I' || c = '_')

/-- Source `generate_label` (create_AOI.py lines 95-100).  Note `lstrip('AOI_')`
removes every leading character drawn from the set `{A, O, I, _}`, not
the literal prefix `AOI_`. -/
def generate_label (label : String) (aoi_type : String) : String :=
  let l := sanitize label
  let l :=
    if List.isPrefixOf "AOI_".data l.data then
      String.mk (l.data.dropWhile inAOIChars)
    else l
  "AOI_" ++ aoi_type ++ "_" ++ l

/-- Source `validate_email` (create_AOI.py lines 157-159): `email.replace(' ', '')`. -/
def validate_email (email : String) : String :=
  String.mk (email.data.filter (fun c => !(c = ' ')))

/-- The list comprehension `[validate_email(item) for item in emails]`
(create_AOI.py lines 153 and 155): left to right, the first non-string
element raises on `replace`. -/
def listCompValidateEmail : List PyVal → Except String (List String)
  | [] => Except.ok []
  | PyVal.vstr s :: rest => do
      let es ← listCompValidateEmail rest
      Except.ok (validate_email s :: es)
  | _ :: _ => Except.error "AttributeError: str method on non-string"

/-- Source `parse_emails` (create_AOI.py lines 150-155): a list input is
mapped through `validate_email` element-wise; a string input is split on
commas; any other input raises on `split`. -/
def parse_emails (emails : PyVal) : Except String (List String) :=
  match emails with
  | PyVal.vlist items => listCompValidateEmail items
  | PyVal.vstr s => Except.ok ((pySplit s ',').map validate_email)
  | _ => Except.error "AttributeError: str method on non-string"

/-- A parsed `datetime`: civil fields plus an optional fixed UTC offset in
minutes (`none` = naive datetime). -/
structure PyDateTime where
  year : Nat
  month : Nat
  day : Nat
  hour : Nat
  minute : Nat
  second : Nat
  tzOffsetMinutes : Option Int
deriving DecidableEq

/-- ASCII digit test (the only digits the modelled grammar accepts). -/
def isDig (c : Char) : Bool :=
  (48 ≤ c.toNat && c.toNat ≤ 57)

/-- Numeric value of an ASCII digit. -/
def digitVal (c : Char) : Nat :=
  c.toNat - 48

/-- Exactly four digits. -/
def parse4 (s : String) : Option Nat :=
  match s.data with
  | [a, b, c, d] =>
      if isDig a && isDig b && isDig c && isDig d then
        some (digitVal a * 1000 + digitVal b * 100 + digitVal c * 10 + digitVal d)
      else Option.none
  | _ => Option.none

/-- One or two digits. -/
def parse1or2 (s : String) : Option Nat :=
  match s.data with
  | [a] => if isDig a then some (digitVal a) else Option.none
  | [a, b] =>
      if isDig a && isDig b then some (digitVal a * 10 + digitVal b) else Option.none
  | _ => Option.none

def isLeap (y : Nat) : Bool :=
  (y % 4 = 0 && !(y % 100 = 0)) || y % 400 = 0

def daysInMonth (y m : Nat) : Nat :=
  if m = 2 then (if isLeap y then 29 else 28)
  else if m = 4 || m = 6 || m = 9 || m = 11 then 30
  else 31

/-- Format `YYYY-MM-DD` (years 1000-9999, month/day validated as `datetime` does). -/
def parseDate (s : String) : Option (Nat × Nat × Nat) :=
  match pySplit s '-' with
  | [ys, ms, ds] => do
      let y ← parse4 ys
      let mo ← parse1or2 ms
      let da ← parse1or2 ds
      if 1000 ≤ y && 1 ≤ mo && mo ≤ 12 && 1 ≤ da && da ≤ daysInMonth y mo then
        some (y, mo, da)
      else Option.none
  | _ => Option.none

/-- Format `HH:MM` as an offset magnitude in minutes. -/
def parseOffsetMin (s : String) : Option Nat :=
  match pySplit s ':' with
  | [hs, ms] => do
      let h ← parse1or2 hs
      let m ← parse1or2 ms
      if h < 24 && m < 60 then some (h * 60 + m) else Option.none
  | _ => Option.none

/-- Split a time-of-day string from its optional timezone suffix
(`Z`, `+HH:MM` or `-HH:MM`); `none` in the second component means a
naive time. -/
def splitTimeOffset (t : String) : Option (String × Option Int) :=
  match t.data.getLast? with
  | some 'Z' => some (String.mk t.data.dropLast, some 0)
  | _ =>
      match pySplit t '+' with
      | [a, b] => (parseOffsetMin b).map (fun om => (a, some (Int.ofNat om)))
      | [a] =>
          (match pySplit a '-' with
           | [x, y] => (parseOffsetMin y).map (fun om => (x, some (-(Int.ofNat om))))
           | [x] => some (x, Option.none)
           | _ => Option.none)
      | _ => Option.none

/-- Format `HH:MM` or `HH:MM:SS`. -/
def parseHMS (s : String) : Option (Nat × Nat × Nat) :=
  match pySplit s ':' with
  | [hs, ms] => do
      let h ← parse1or2 hs
      let m ← parse1or2 ms
      if h < 24 && m < 60 then some (h, m, 0) else Option.none
  | [hs, ms, ss] => do
      let h ← parse1or2 hs
      let m ← parse1or2 ms
      let sec ← parse1or2 ss
      if h < 24 && m < 60 && sec < 60 then some (h, m, sec) else Option.none
  | _ => Option.none

/-- Model of `dateutil.parser.parse`, restricted to the grammar
`YYYY-MM-DD[( |T)HH:MM[:SS][Z|+HH:MM|-HH:MM]]`; every string outside
this grammar is unparseable (`none`).  A date without a time-of-day
parses to midnight, as `dateutil` does. -/
def parseDateTime (s : String) : Option PyDateTime :=
  let parts :=
    if (pySplit s ' ').length = 2 then pySplit s ' ' else pySplit s 'T'
  match parts with
  | [d] => do
      let (y, mo, da) ← parseDate d
      some ⟨y, mo, da, 0, 0, 0, Option.none⟩
  | [d, t] => do
      let (y, mo, da) ← parseDate d
      let (tcore, off) ← splitTimeOffset t
      let (h, mi, sec) ← parseHMS tcore
      some ⟨y, mo, da, h, mi, sec, off⟩
  | _ => Option.none

/-- One decimal digit as a character (callers pass values below 10). -/
def digitCharM : Nat → Char
  | 0 => '0'
  | 1 => '1'
  | 2 => '2'
  | 3 => '3'
  | 4 => '4'
  | 5 => '5'
  | 6 => '6'
  | 7 => '7'
  | 8 => '8'
  | _ => '9'

/-- Format `%02d`. -/
def pad2l (n : Nat) : List Char :=
  [digitCharM (n / 10 % 10), digitCharM (n % 10)]

/-- Format `%Y` for years 1000-9999. -/
def pad4l (n : Nat) : List Char :=
  [digitCharM (n / 1000 % 10), digitCharM (n / 100 % 10),
   digitCharM (n / 10 % 10), digitCharM (n % 10)]

/-- Python `datetime.strftime('%Y-%m-%dT%H:%M:%SZ')`: formats the wall-clock
fields and appends a literal `Z`; the timezone offset carried by the
datetime is not consulted (no conversion to UTC happens). -/
def strftimeZ (dt : PyDateTime) : String :=
  String.mk (pad4l dt.year ++ '-' :: pad2l dt.month ++ '-' :: pad2l dt.day
    ++ 'T' :: pad2l dt.hour ++ ':' :: pad2l dt.minute ++ ':' :: pad2l dt.second
    ++ ['Z'])

/-- Source `validate_time` (create_AOI.py lines 106-113). -/
def validate_time (input_time_string : String) : Except String String :=
  match parseDateTime input_time_string with
  | some outtime => Except.ok (strftimeZ outtime)
  | Option.none =>
      Except.error ("unable to parse input time: " ++ input_time_string)

/-- Source `validate_event_time` (create_AOI.py lines 115-124).  The input is an
arbitrary Python value: only the exact empty string short-circuits to
`None` (modelled as `Except.ok Option.none`, the "absent" outcome); any
non-string input, Python `None` included, makes `dateutil.parser.parse`
raise, which the bare `except` converts into the fatal parse error. -/
def validate_event_time (input_time_string : PyVal) : Except String (Option String) :=
  match input_time_string with
  | PyVal.vstr s =>
      if s = "" then Except.ok Option.none
      else
        match parseDateTime s with
        | some outtime => Except.ok (some (strftimeZ outtime))
        | Option.none => Except.error ("unable to parse input time: " ++ s)
  | _ => Except.error "unable to parse input time"

/-- Shape check: 20 characters, `DDDD-DD-DDTDD:DD:DDZ` with `D` a digit. -/
def isIsoFormat (s : String) : Bool :=
  match s.data with
  | [a, b, c, d, e, f, g, h, i, j, k, l, m, n, o, p, q, r, t, u] =>
      isDig a && isDig b && isDig c && isDig d && (e = '-')
        && isDig f && isDig g && (h = '-') && isDig i && isDig j
        && (k = 'T') && isDig l && isDig m && (n = ':') && isDig o && isDig p
        && (q = ':') && isDig r && isDig t && (u = 'Z')
  | _ => false

/-- Modelled from the spec: days since 1970-01-01 of a civil date (the
standard days-from-civil computation), used to state what "the instant
re-expressed in UTC" means.  `Int.tdiv` is C-style truncated division. -/
def daysFromCivil (y : Int) (m d : Nat) : Int :=
  let y' := if m ≤ 2 then y - 1 else y
  let era := (if 0 ≤ y' then y' else y' - 399).tdiv 400
  let yoe := y' - era * 400
  let mp := if 2 < m then m - 3 else m + 9
  let doy := (153 * mp + 2) / 5 + d - 1
  let doe := yoe * 365 + yoe.tdiv 4 - yoe.tdiv 100 + Int.ofNat doy
  era * 146097 + doe - 719468

/-- Modelled from the spec: the instant a parsed date-time denotes, in
minutes since the epoch — wall-clock minutes shifted back by the UTC
offset (a naive datetime is read as UTC).  Two date-times denote the
same instant exactly when the spec's "re-expressed in UTC" preserves
their value. -/
def instantMinutes (dt : PyDateTime) : Int :=
  daysFromCivil (Int.ofNat dt.year) dt.month dt.day * 1440
    + Int.ofNat (dt.hour * 60 + dt.minute) - dt.tzOffsetMinutes.getD 0

/-- A coordinate pair `[x, y]` (or `(x, y)`), numeric values modelled as
integers. -/
def pyCoord : PyVal → Option (Int × Int)
  | PyVal.vlist [PyVal.vint x, PyVal.vint y] => some (x, y)
  | _ => Option.none

/-- A ring: a list whose elements are all coordinate pairs. -/
def pyRing : PyVal → Option (List (Int × Int))
  | PyVal.vlist items => items.mapM pyCoord
  | _ => Option.none

/-- Shapely closes a linear ring by appending the first point when the
ring is not already closed. -/
def closeRing (r : List (Int × Int)) : List (Int × Int) :=
  match r with
  | [] => []
  | p :: _ => if r.getLast? = some p then r else r ++ [p]

/-- Model of `mapping(Polygon(ring))`: the empty ring gives an empty
polygon; otherwise the closed ring must have at least 4 points (GEOS
rejects shorter rings); the result is the GeoJSON-style mapping
`{"type": "Polygon", "coordinates": (ring,)}`. -/
def shapely_mapping_polygon (r : List (Int × Int)) : Option PyVal :=
  if r.isEmpty then
    some (PyVal.vdict [("type", PyVal.vstr "Polygon"), ("coordinates", PyVal.vlist [])])
  else
    let cr := closeRing r
    if 4 ≤ cr.length then
      some (PyVal.vdict [("type", PyVal.vstr "Polygon"),
        ("coordinates", PyVal.vlist
          [PyVal.vlist (cr.map (fun p => PyVal.vlist [PyVal.vint p.1, PyVal.vint p.2]))])])
    else Option.none

/-- Source `validate_geojson` (create_AOI.py lines 126-148).  A string input
goes through the `json.loads` / `ast.literal_eval` chain (`decode`).
Inside the `try` block, `input_geojson.keys()` is evaluated first: on a
non-dict (a bare coordinate list included) this raises
`AttributeError`, which the bare `except` turns into the fatal parse
error — so the `else` branch meant for bare coordinate lists is only
reachable for dicts without a `coordinates` key, where
`Polygon(input_geojson)` then raises.  A dict with a `coordinates` key
builds the polygon from `coordinates[0]`. -/
def validate_geojson (decode : String → Option PyVal) (input_geojson : PyVal) :
    Except String PyVal := do
  let g ←
    (match input_geojson with
     | PyVal.vstr s =>
         (match decode s with
          | some v => Except.ok v
          | Option.none => Except.error ("unable to parse input geojson string: " ++ s))
     | v => Except.ok v)
  match g with
  | PyVal.vdict d =>
      (match lookupKey d "coordinates" with
       | some (PyVal.vlist (r0 :: _)) =>
           (match pyRing r0 with
            | some ring =>
                (match shapely_mapping_polygon ring with
                 | some location => Except.ok location
                 | Option.none => Except.error "unable to parse geojson")
            | Option.none => Except.error "unable to parse geojson")
       | some _ => Except.error "unable to parse geojson"
       | Option.none => Except.error "unable to parse geojson")
  | _ => Except.error "unable to parse geojson"

/-- Python `additional_met == '' or additional_met is None`. -/
def isEmptyOrNone : PyVal → Bool
  | PyVal.vstr s => s = ""
  | PyVal.vnone => true
  | _ => false

/-- Source `parse_additional_metadata` (create_AOI.py lines 70-93).  Note line
83 tests for the key `'user'` but line 84 reads `additional_met
['username']`: the `username` field is copied only when `'user'` is
present, and its absence then raises an uncaught `KeyError`.  A string
that decodes to a non-dict reaches `.keys()` and raises an uncaught
`AttributeError`. -/
def parse_additional_metadata (decode : String → Option PyVal)
    (additional_met : PyVal) (met : List (String × PyVal)) :
    Except String (List (String × PyVal)) := do
  if isEmptyOrNone additional_met then Except.ok met
  else do
    let d ←
      (match additional_met with
       | PyVal.vdict d => Except.ok d
       | PyVal.vstr s =>
           (match decode s with
            | some (PyVal.vdict d) => Except.ok d
            | some _ => Except.error "AttributeError: keys on non-dict"
            | Option.none => Except.error "additional metadata cannot be parsed")
       | _ => Except.error "additional metadata cannot be parsed")
    let met ←
      (if hasKey d "user" then
        match lookupKey d "username" with
        | some v => Except.ok (setKey met "username" v)
        | Option.none => Except.error "KeyError: username"
      else Except.ok met)
    let met ←
      (match lookupKey d "eventtime" with
       | some v => do
           let event_time ← validate_event_time v
           (match event_time with
            | some s => Except.ok (setKey met "eventtime" (PyVal.vstr s))
            | Option.none => Except.ok met)
       | Option.none => Except.ok met)
    let met ←
      Except.ok
        (match lookupKey d "image_url" with
         | some v => setKey met "image_url" v
         | Option.none => met)
    let met ←
      Except.ok
        (match lookupKey d "event_metadata" with
         | some v => setKey met "event_metadata" v
         | Option.none => met)
    Except.ok met

/-- Source `build_aoi_ds` (create_AOI.py lines 34-54).  The local `email_list`
is only assigned inside the `if 'emails' in context.keys()` block
(lines 42-45), yet line 53 executes `ds['emails'] = email_list`
unconditionally, so a context without an `emails` key raises
`UnboundLocalError` after all six core fields were validated and set.
The template's default list plus the parsed context emails go through
`list(set(...))` (`pydedup`), which requires every element hashable. -/
def build_aoi_ds (decode : String → Option PyVal)
    (context : List (String × PyVal)) (ds : List (String × PyVal)) :
    Except String (List (String × PyVal)) := do
  let tv ← pyGetItem context "type"
  let ts ← pyAsStr tv
  let aoi_type ← Except.ok (validate_type ts)
  let nv ← pyGetItem context "name"
  let ns ← pyAsStr nv
  let label ← Except.ok (generate_label ns aoi_type)
  let project ← pyGetItem context "account"
  let gv ← pyGetItem context "geojson_polygon"
  let polygon_geojson ← validate_geojson decode gv
  let sv ← pyGetItem context "starttime"
  let ss ← pyAsStr sv
  let starttime ← validate_time ss
  let ev ← pyGetItem context "endtime"
  let es ← pyAsStr ev
  let endtime ← validate_time es
  let email_list ←
    (if hasKey context "emails" then do
      let basev ← pyGetItem ds "emails"
      let base ← pyAsList basev
      let emv ← pyGetItem context "emails"
      let additional ← parse_emails emv
      let combined ← Except.ok (base ++ additional.map PyVal.vstr)
      if combined.all isAtom then Except.ok (some (pydedup combined))
      else Except.error "TypeError: unhashable type"
    else Except.ok Option.none)
  let ds ← Except.ok (setKey ds "label" (PyVal.vstr label))
  let ds ← Except.ok (setKey ds "type" (PyVal.vstr aoi_type))
  let ds ← Except.ok (setKey ds "account" project)
  let ds ← Except.ok (setKey ds "location" polygon_geojson)
  let ds ← Except.ok (setKey ds "starttime" (PyVal.vstr starttime))
  let ds ← Except.ok (setKey ds "endtime" (PyVal.vstr endtime))
  match email_list with
  | some l => Except.ok (setKey ds "emails" (PyVal.vlist l))
  | Option.none =>
      Except.error "UnboundLocalError: local variable referenced before assignment"

/-! Concrete inputs used to evaluate the pipeline at specific points. -/

/-- A decoder standing in for `json.loads` / `ast.literal_eval` where no
string input ever has to be decoded. -/
def decodeNone : String → Option PyVal := fun _ => Option.none

/-- Coordinate pair `[x, y]`. -/
def samplePt (x y : Int) : PyVal :=
  PyVal.vlist [PyVal.vint x, PyVal.vint y]

/-- The closed unit-square ring from the spec's testable properties. -/
def sampleRing : PyVal :=
  PyVal.vlist [samplePt 0 0, samplePt 0 1, samplePt 1 1, samplePt 1 0, samplePt 0 0]

/-- The normalized polygon mapping for `sampleRing`. -/
def samplePoly : PyVal :=
  PyVal.vdict [("type", PyVal.vstr "Polygon"), ("coordinates", PyVal.vlist [sampleRing])]

/-- A minimal valid context: exactly the six core keys, no `emails`. -/
def contextMinimal : List (String × PyVal) :=
  [("type", PyVal.vstr "flood"), ("name", PyVal.vstr "myaoi"),
   ("account", PyVal.vstr "acct"),
   ("geojson_polygon", PyVal.vdict [("coordinates", PyVal.vlist [sampleRing])]),
   ("starttime", PyVal.vstr "2021-03-01 10:00"),
   ("endtime", PyVal.vstr "2021-03-02 10:00")]

/-- The minimal context extended with an `emails` entry. -/
def contextWithEmails : List (String × PyVal) :=
  setKey contextMinimal "emails" (PyVal.vstr "a@x.com, t@x.com")

/-- A dataset template whose default email list is `["t@x.com"]`. -/
def templateWithEmails : List (String × PyVal) :=
  [("emails", PyVal.vlist [PyVal.vstr "t@x.com"])]

/-- The dataset record built from `contextWithEmails`. -/
def dsEmailsResult : List (String × PyVal) :=
  match build_aoi_ds decodeNone contextWithEmails templateWithEmails with
  | Except.ok d => d
  | Except.error _ => []

/-- A metadata record with one unrelated key. -/
def metFrameInput : List (String × PyVal) :=
  [("foo", PyVal.vint 1)]

/-- Additional metadata carrying `user`, `username` and an unrelated key. -/
def ametFrameInput : PyVal :=
  PyVal.vdict [("user", PyVal.vstr "u"), ("username", PyVal.vstr "bob"),
    ("other", PyVal.vint 5)]

/-- The metadata record produced from `ametFrameInput`. -/
def metFrameResult : List (String × PyVal) :=
  match parse_additional_metadata decodeNone ametFrameInput metFrameInput with
  | Except.ok d => d
  | Except.error _ => []

/-! Helper lemmas. -/

theorem except_bind_ok {ε α β : Type} (x : Except ε α) (f : α → Except ε β) (b : β) :
    (x >>= f) = Except.ok b ↔ ∃ a, x = Except.ok a ∧ f a = Except.ok b := by
  cases x <;> simp [Bind.bind, Except.bind]

theorem lookupKey_setKey_self (d : List (String × PyVal)) (k : String) (v : PyVal) :
    lookupKey (setKey d k v) k = some v := by
  induction d with
  | nil => simp [setKey, lookupKey]
  | cons kv rest ih =>
      obtain ⟨k', w⟩ := kv
      by_cases h : k' = k
      · subst h; simp [setKey, lookupKey]
      · simp [setKey, lookupKey, h, ih]

theorem lookupKey_setKey_ne (d : List (String × PyVal)) (k key : String) (v : PyVal)
    (h : key ≠ k) : lookupKey (setKey d k v) key = lookupKey d key := by
  induction d with
  | nil => simp [setKey, lookupKey, Ne.symm h]
  | cons kv rest ih =>
      obtain ⟨k', w⟩ := kv
      by_cases hk : k' = k
      · subst hk
        simp [setKey, lookupKey, Ne.symm h]
      · by_cases hkey : k' = key
        · subst hkey; simp [setKey, lookupKey, hk]
        · simp [setKey, lookupKey, hk, hkey, ih]

theorem isDig_digitCharM (n : Nat) : isDig (digitCharM n) = true := by
  match n with
  | 0 | 1 | 2 | 3 | 4 | 5 | 6 | 7 | 8 => rfl
  | n + 9 => rfl

theorem isIsoFormat_strftimeZ (dt : PyDateTime) : isIsoFormat (strftimeZ dt) = true := by
  obtain ⟨y, mo, d, h, mi, s, tz⟩ := dt
  simp [strftimeZ, pad4l, pad2l, isIsoFormat, isDig_digitCharM]

theorem spaceToUnderscore_of_word (c : Char) (h : isWordChar c = true) :
    spaceToUnderscore c = c := by
  unfold spaceToUnderscore
  by_cases hc : c = ' '
  · exact absurd h (by subst hc; decide)
  · simp [hc]

theorem filter_map_filter_fixed (l : List Char) :
    ((l.filter isWordChar).map spaceToUnderscore).filter isWordChar
      = l.filter isWordChar := by
  induction l with
  | nil => rfl
  | cons c cs ih =>
      by_cases hc : isWordChar c = true
      · rw [List.filter_cons_of_pos hc, List.map_cons,
          spaceToUnderscore_of_word c hc, List.filter_cons_of_pos hc, ih]
      · rw [List.filter_cons_of_neg (by simp [hc]), ih]

theorem pvBeq_refl (a : PyVal) (h : isAtom a = true) : pvBeq a a = true := by
  cases a <;> simp_all [isAtom, pvBeq]

theorem pvBeq_eq (a b : PyVal) (ha : isAtom a = true) (h : pvBeq a b = true) :
    a = b := by
  cases a <;> cases b <;> simp_all [isAtom, pvBeq]

theorem mem_pydedup {l : List PyVal} (hl : l.all isAtom = true) (v : PyVal) :
    v ∈ pydedup l ↔ v ∈ l := by
  induction l with
  | nil => simp [pydedup]
  | cons x xs ih =>
      simp only [List.all_cons, Bool.and_eq_true] at hl
      obtain ⟨hx, hxs⟩ := hl
      simp only [pydedup, List.mem_cons, List.mem_filter]
      constructor
      · rintro (rfl | ⟨hv, hb⟩)
        · exact Or.inl rfl
        · exact Or.inr ((ih hxs).mp hv)
      · rintro (rfl | hv)
        · exact Or.inl rfl
        · by_cases hbx : pvBeq x v = true
          · exact Or.inl (pvBeq_eq x v hx hbx).symm
          · exact Or.inr ⟨(ih hxs).mpr hv, by simp [hbx]⟩

theorem nodup_pydedup {l : List PyVal} (hl : l.all isAtom = true) :
    (pydedup l).Nodup := by
  induction l with
  | nil => simp [pydedup]
  | cons x xs ih =>
      simp only [List.all_cons, Bool.and_eq_true] at hl
      obtain ⟨hx, hxs⟩ := hl
      simp only [pydedup]
      refine List.nodup_cons.mpr ⟨?_, (ih hxs).filter _⟩
      intro hmem
      rw [List.mem_filter] at hmem
      have hb := hmem.2
      rw [pvBeq_refl x hx] at hb
      simp at hb

theorem all_filter_isWordChar (l : List Char) :
    (l.filter isWordChar).all isWordChar = true := by
  rw [List.all_eq_true]
  intro a ha
  exact (List.mem_filter.mp ha).2

/-! Claim theorems. -/

/-- C1: on a context holding exactly the six core keys with valid values
and no `emails` key, `build_aoi_ds` does not produce a dataset record —
every validator succeeds (first three conjuncts), yet the unconditional
`ds['emails'] = email_list` on line 53 reads the never-assigned local
`email_list` and raises `UnboundLocalError`, contradicting the claim
that no exception is raised. -/
theorem build_aoi_ds_minimal_context_raises :
    validate_time "2021-03-01 10:00" = Except.ok "2021-03-01T10:00:00Z"
  ∧ validate_time "2021-03-02 10:00" = Except.ok "2021-03-02T10:00:00Z"
  ∧ validate_geojson decodeNone
      (PyVal.vdict [("coordinates", PyVal.vlist [sampleRing])]) = Except.ok samplePoly
  ∧ build_aoi_ds decodeNone contextMinimal templateWithEmails
      = Except.error "UnboundLocalError: local variable referenced before assignment" :=
  ⟨rfl, rfl, rfl, rfl⟩

/-- C2: `generate_label` on the spec's own example produces the expected
`AOI_Wildfire_Flood_Zone` (the strip stops at `F`), but `lstrip('AOI_')`
removes arbitrary leading characters from the set `{A, O, I, _}`: the
name `AOI_Apple` loses the `A` of `Apple` and yields `AOI_Wildfire_pple`
instead of the literal-prefix-strip result `AOI_Wildfire_Apple`. -/
theorem generate_label_strips_charset :
    generate_label "AOI_Flood Zone" "Wildfire" = "AOI_Wildfire_Flood_Zone"
  ∧ generate_label "AOI_Apple" "Wildfire" = "AOI_Wildfire_pple" :=
  ⟨rfl, rfl⟩

/-- C3 counterexample: on the input `2021-03-01 10:00:00+05:00`, which
carries a non-zero timezone offset, `validate_time` emits
`2021-03-01T10:00:00Z` — the parsed wall-clock fields with a literal `Z`
— and the instant denoted by that output (read as UTC) differs from the
instant denoted by the input, so the output is not the input
re-expressed in UTC (that would be `2021-03-01T05:00:00Z`). -/
theorem validate_time_not_utc :
    validate_time "2021-03-01 10:00:00+05:00" = Except.ok "2021-03-01T10:00:00Z"
  ∧ (parseDateTime "2021-03-01 10:00:00+05:00").map instantMinutes
      ≠ (parseDateTime "2021-03-01T10:00:00Z").map instantMinutes :=
  ⟨rfl, by decide⟩

/-- C3 (amended): for every input the model can parse, `validate_time`
returns the parsed wall-clock fields formatted as `YYYY-MM-DDTHH:MM:SSZ`
(the shape always holds), ignoring any timezone offset the input
carried rather than converting to UTC; every unparseable input raises
the parse error. -/
theorem validate_time_amended (s : String) :
    (∀ dt : PyDateTime, parseDateTime s = some dt →
        validate_time s = Except.ok (strftimeZ dt)
      ∧ isIsoFormat (strftimeZ dt) = true
      ∧ strftimeZ dt = strftimeZ
          ⟨dt.year, dt.month, dt.day, dt.hour, dt.minute, dt.second, Option.none⟩)
  ∧ (parseDateTime s = Option.none →
      validate_time s = Except.error ("unable to parse input time: " ++ s)) := by
  constructor
  · intro dt h
    exact ⟨by simp [validate_time, h], isIsoFormat_strftimeZ dt, rfl⟩
  · intro h
    simp [validate_time, h]

/-- Witness for the amended C3 theorem at the spec's example input. -/
theorem validate_time_amended_witness :
    validate_time "2021-03-01 10:00"
      = Except.ok (strftimeZ ⟨2021, 3, 1, 10, 0, 0, Option.none⟩) :=
  ((validate_time_amended "2021-03-01 10:00").1
    ⟨2021, 3, 1, 10, 0, 0, Option.none⟩ rfl).1

/-- C4: `parse_additional_metadata` tests for the key `'user'` but reads
`additional_met['username']`.  A mapping holding only `username` is
passed through without the copy the claim requires, and a mapping
holding only `user` raises `KeyError` although it has no `username`
key, contradicting "no error is raised". -/
theorem parse_additional_metadata_checks_user_key :
    parse_additional_metadata decodeNone
        (PyVal.vdict [("username", PyVal.vstr "alice")]) []
      = Except.ok []
  ∧ parse_additional_metadata decodeNone
        (PyVal.vdict [("user", PyVal.vstr "x")]) []
      = Except.error "KeyError: username" :=
  ⟨rfl, rfl⟩

/-- C5 counterexample: a `None` input is not the empty string, so it
reaches `dateutil.parser.parse`, which raises; the bare `except` turns
this into the fatal parse error rather than the "absent" outcome the
claim asserts for a None-equivalent empty input. -/
theorem validate_event_time_none_fatal :
    validate_event_time PyVal.vnone = Except.error "unable to parse input time"
  ∧ validate_event_time PyVal.vnone ≠ Except.ok Option.none :=
  ⟨rfl, fun h => Except.noConfusion h⟩

/-- C5 (amended): `validate_event_time` returns the absent marker for
the empty string only; a `None` input raises a fatal parse error; every
non-empty string input behaves exactly like `validate_time` with the
result wrapped in `some`. -/
theorem validate_event_time_amended :
    validate_event_time (PyVal.vstr "") = Except.ok Option.none
  ∧ (∃ e, validate_event_time PyVal.vnone = Except.error e)
  ∧ ∀ s : String, s ≠ "" →
      validate_event_time (PyVal.vstr s) = Except.map some (validate_time s) := by
  refine ⟨rfl, ⟨"unable to parse input time", rfl⟩, ?_⟩
  intro s hs
  simp only [validate_event_time, validate_time, if_neg hs]
  cases h : parseDateTime s <;> simp [h, Except.map]

/-- Witness for the amended C5 theorem at a concrete non-empty input. -/
theorem validate_event_time_amended_witness :
    validate_event_time (PyVal.vstr "2021-03-01 10:00")
      = Except.map some (validate_time "2021-03-01 10:00") :=
  validate_event_time_amended.2.2 "2021-03-01 10:00" (by decide)

/-- C7: the two input forms the claim equates are not treated alike.
The dict form `{"coordinates": [ring]}` yields the normalized Polygon
mapping whose closed exterior ring matches the input ring, but the bare
ring form raises: `input_geojson.keys()` on a list raises
`AttributeError` inside the `try` block, so the branch meant for bare
coordinate lists is unreachable and the call fails with the geojson
parse error. -/
theorem validate_geojson_list_branch_unreachable :
    validate_geojson decodeNone
        (PyVal.vdict [("coordinates", PyVal.vlist [sampleRing])])
      = Except.ok samplePoly
  ∧ validate_geojson decodeNone sampleRing = Except.error "unable to parse geojson" :=
  ⟨rfl, rfl⟩

/-- C8: `parse_emails` maps a list of strings through space removal in
encounter order, splits a single string on commas with spaces removed
from each piece, reproduces the spec's example, and never deduplicates
(a duplicated address stays duplicated). -/
theorem parse_emails_splits_and_strips :
    (∀ items : List String,
        parse_emails (PyVal.vlist (items.map PyVal.vstr))
          = Except.ok (items.map validate_email))
  ∧ (∀ s : String,
        parse_emails (PyVal.vstr s)
          = Except.ok ((pySplit s ',').map validate_email))
  ∧ parse_emails (PyVal.vstr "a@x.com, b@x.com") = Except.ok ["a@x.com", "b@x.com"]
  ∧ parse_emails (PyVal.vstr "a@x.com,a@x.com") = Except.ok ["a@x.com", "a@x.com"] := by
  refine ⟨?_, fun s => rfl, rfl, rfl⟩
  intro items
  induction items with
  | nil => rfl
  | cons a rest ih =>
      simp only [List.map_cons, parse_emails, listCompValidateEmail] at ih ⊢
      rw [ih]
      rfl

/-- Witness for C8 at a concrete list input with an embedded space. -/
theorem parse_emails_splits_and_strips_witness :
    parse_emails (PyVal.vlist ((["a @x.com", "b@x.com"].map PyVal.vstr)))
      = Except.ok (["a @x.com", "b@x.com"].map validate_email) :=
  parse_emails_splits_and_strips.1 ["a @x.com", "b@x.com"]

/-- C9: the sanitizer `validate_type` is idempotent, and its output
consists solely of ASCII letters, digits and underscores. -/
theorem validate_type_idempotent (s : String) :
    validate_type (validate_type s) = validate_type s
  ∧ (validate_type s).data.all isWordChar = true := by
  constructor
  · exact congrArg String.mk (filter_map_filter_fixed (s.data.map spaceToUnderscore))
  · exact all_filter_isWordChar (s.data.map spaceToUnderscore)

/-- Witness for C9 at the spec's example input. -/
theorem validate_type_idempotent_witness :
    validate_type (validate_type "My Area!") = validate_type "My Area!"
  ∧ (validate_type "My Area!").data.all isWordChar = true :=
  validate_type_idempotent "My Area!"

/-- C10: `parse_additional_metadata` touches at most the four keys
`username`, `eventtime`, `image_url`, `event_metadata` — whatever the
input and the decoder, whenever it returns a record, every other key of
the incoming record keeps its value — and the empty string and `None`
inputs return the record entirely unchanged. -/
theorem parse_additional_metadata_frame
    (decode : String → Option PyVal) (amet : PyVal) (met met' : List (String × PyVal)) :
    (parse_additional_metadata decode amet met = Except.ok met' →
        ∀ key : String,
          key ∉ (["username", "eventtime", "image_url", "event_metadata"] : List String) →
          lookupKey met' key = lookupKey met key)
  ∧ parse_additional_metadata decode (PyVal.vstr "") met = Except.ok met
  ∧ parse_additional_metadata decode PyVal.vnone met = Except.ok met := by
  refine ⟨?_, rfl, rfl⟩
  intro hok key hkey
  have hk1 : key ≠ "username" := fun h => hkey (by simp [h])
  have hk2 : key ≠ "eventtime" := fun h => hkey (by simp [h])
  have hk3 : key ≠ "image_url" := fun h => hkey (by simp [h])
  have hk4 : key ≠ "event_metadata" := fun h => hkey (by simp [h])
  unfold parse_additional_metadata at hok
  by_cases hmt : isEmptyOrNone amet = true
  · rw [if_pos hmt] at hok
    injection hok with hok
    rw [hok]
  · rw [if_neg hmt] at hok
    rw [except_bind_ok] at hok
    obtain ⟨d, hd, hok⟩ := hok
    rw [except_bind_ok] at hok
    obtain ⟨met1, h1, hok⟩ := hok
    rw [except_bind_ok] at hok
    obtain ⟨met2, h2, hok⟩ := hok
    rw [except_bind_ok] at hok
    obtain ⟨met3, h3, hok⟩ := hok
    rw [except_bind_ok] at hok
    obtain ⟨met4, h4, hok⟩ := hok
    injection hok with hfin
    have e1 : lookupKey met1 key = lookupKey met key := by
      by_cases hu : hasKey d "user" = true
      · rw [if_pos hu] at h1
        cases hlu : lookupKey d "username" with
        | none =>
            rw [hlu] at h1
            exact absurd h1 (fun h => Except.noConfusion h)
        | some v =>
            rw [hlu] at h1
            injection h1 with h1
            rw [← h1]
            exact lookupKey_setKey_ne met "username" key v hk1
      · rw [if_neg hu] at h1
        injection h1 with h1
        rw [← h1]
    have e2 : lookupKey met2 key = lookupKey met1 key := by
      cases hle : lookupKey d "eventtime" with
      | none =>
          rw [hle] at h2
          injection h2 with h2
          rw [← h2]
      | some v =>
          rw [hle] at h2
          rw [except_bind_ok] at h2
          obtain ⟨et, het, h2⟩ := h2
          cases et with
          | none =>
              injection h2 with h2
              rw [← h2]
          | some str =>
              injection h2 with h2
              rw [← h2]
              exact lookupKey_setKey_ne met1 "eventtime" key (PyVal.vstr str) hk2
    have e3 : lookupKey met3 key = lookupKey met2 key := by
      injection h3 with h3
      cases hli : lookupKey d "image_url" with
      | none =>
          rw [hli] at h3
          rw [← h3]
      | some v =>
          rw [hli] at h3
          rw [← h3]
          exact lookupKey_setKey_ne met2 "image_url" key v hk3
    have e4 : lookupKey met4 key = lookupKey met3 key := by
      injection h4 with h4
      cases hlm : lookupKey d "event_metadata" with
      | none =>
          rw [hlm] at h4
          rw [← h4]
      | some v =>
          rw [hlm] at h4
          rw [← h4]
          exact lookupKey_setKey_ne met3 "event_metadata" key v hk4
    rw [← hfin, e4, e3, e2, e1]

/-- Witness for C10 at a concrete input: the unrelated key `foo`
survives a merge that rewrites `username`. -/
theorem parse_additional_metadata_frame_witness :
    lookupKey metFrameResult "foo" = lookupKey metFrameInput "foo" :=
  (parse_additional_metadata_frame decodeNone ametFrameInput metFrameInput
      metFrameResult).1 rfl "foo" (by decide)

/-- C6: whenever `build_aoi_ds` succeeds on a context holding an
`emails` key, the `emails` field of the produced record is a
duplicate-free list whose elements, as a set, are exactly the union of
the template's default list and the emails parsed from the context. -/
theorem build_aoi_ds_emails_dedup
    (decode : String → Option PyVal) (context ds ds' : List (String × PyVal))
    (base : List PyVal) (emailsVal : PyVal) (parsed : List String)
    (hev : lookupKey context "emails" = some emailsVal)
    (hbase : lookupKey ds "emails" = some (PyVal.vlist base))
    (hparsed : parse_emails emailsVal = Except.ok parsed)
    (hok : build_aoi_ds decode context ds = Except.ok ds') :
    ∃ l : List PyVal,
      lookupKey ds' "emails" = some (PyVal.vlist l) ∧ l.Nodup ∧
        ∀ v : PyVal, v ∈ l ↔ (v ∈ base ∨ v ∈ parsed.map PyVal.vstr) := by
  unfold build_aoi_ds at hok
  rw [except_bind_ok] at hok; obtain ⟨tv, htv, hok⟩ := hok
  rw [except_bind_ok] at hok; obtain ⟨ts, hts, hok⟩ := hok
  rw [except_bind_ok] at hok; obtain ⟨aoiType, hatype, hok⟩ := hok
  rw [except_bind_ok] at hok; obtain ⟨nv, hnv, hok⟩ := hok
  rw [except_bind_ok] at hok; obtain ⟨ns, hns, hok⟩ := hok
  rw [except_bind_ok] at hok; obtain ⟨label, hlab, hok⟩ := hok
  rw [except_bind_ok] at hok; obtain ⟨project, hpro, hok⟩ := hok
  rw [except_bind_ok] at hok; obtain ⟨gv, hgv, hok⟩ := hok
  rw [except_bind_ok] at hok; obtain ⟨poly, hpoly, hok⟩ := hok
  rw [except_bind_ok] at hok; obtain ⟨sv, hsv, hok⟩ := hok
  rw [except_bind_ok] at hok; obtain ⟨ss, hss, hok⟩ := hok
  rw [except_bind_ok] at hok; obtain ⟨starttime, hstart, hok⟩ := hok
  rw [except_bind_ok] at hok; obtain ⟨ev2, hev2, hok⟩ := hok
  rw [except_bind_ok] at hok; obtain ⟨es, hes, hok⟩ := hok
  rw [except_bind_ok] at hok; obtain ⟨endtime, hend, hok⟩ := hok
  rw [except_bind_ok] at hok; obtain ⟨elist, helist, hok⟩ := hok
  rw [except_bind_ok] at hok; obtain ⟨ds1, hds1, hok⟩ := hok
  rw [except_bind_ok] at hok; obtain ⟨ds2, hds2, hok⟩ := hok
  rw [except_bind_ok] at hok; obtain ⟨ds3, hds3, hok⟩ := hok
  rw [except_bind_ok] at hok; obtain ⟨ds4, hds4, hok⟩ := hok
  rw [except_bind_ok] at hok; obtain ⟨ds5, hds5, hok⟩ := hok
  rw [except_bind_ok] at hok; obtain ⟨ds6, hds6, hok⟩ := hok
  have hck : hasKey context "emails" = true := by
    unfold hasKey; rw [hev]; rfl
  rw [if_pos hck] at helist
  rw [except_bind_ok] at helist; obtain ⟨basev, hbv, helist⟩ := helist
  simp only [pyGetItem, hbase] at hbv
  injection hbv with hbv
  subst hbv
  rw [except_bind_ok] at helist; obtain ⟨baseL, hbl, helist⟩ := helist
  simp only [pyAsList] at hbl
  injection hbl with hbl
  subst hbl
  rw [except_bind_ok] at helist; obtain ⟨emv, hemv, helist⟩ := helist
  simp only [pyGetItem, hev] at hemv
  injection hemv with hemv
  subst hemv
  rw [except_bind_ok] at helist; obtain ⟨addl, haddl, helist⟩ := helist
  rw [hparsed] at haddl
  injection haddl with haddl
  subst haddl
  rw [except_bind_ok] at helist; obtain ⟨combined, hcomb, helist⟩ := helist
  injection hcomb with hcomb
  subst hcomb
  by_cases hat2 : (base ++ parsed.map PyVal.vstr).all isAtom = true
  · rw [if_pos hat2] at helist
    injection helist with helist
    subst helist
    injection hok with hok
    subst hok
    refine ⟨pydedup (base ++ parsed.map PyVal.vstr), ?_, nodup_pydedup hat2, ?_⟩
    · exact lookupKey_setKey_self ds6 "emails" _
    · intro v
      rw [mem_pydedup hat2 v, List.mem_append]
  · rw [if_neg hat2] at helist
    exact absurd helist (fun h => Except.noConfusion h)

/-- Witness for C6: the concrete context carrying
`emails = "a@x.com, t@x.com"` merged against a template default list
`["t@x.com"]`. -/
theorem build_aoi_ds_emails_dedup_witness :
    ∃ l : List PyVal,
      lookupKey dsEmailsResult "emails" = some (PyVal.vlist l) ∧ l.Nodup ∧
        ∀ v : PyVal,
          v ∈ l ↔ (v ∈ [PyVal.vstr "t@x.com"]
            ∨ v ∈ (["a@x.com", "t@x.com"].map PyVal.vstr)) :=
  build_aoi_ds_emails_dedup decodeNone contextWithEmails templateWithEmails
    dsEmailsResult [PyVal.vstr "t@x.com"] (PyVal.vstr "a@x.com, t@x.com")
    ["a@x.com", "t@x.com"] rfl rfl rfl rfl

end CreateAOI
